/-
Verification of the attention-scorer repository's specification against its
source.  The development shallow-embeds:

* the WebSocket distribution hub (Go, `websocket` package: `Hub`,
  `Room`, `Client`, `addClient`, `removeClient`, `broadcastToRoom`),
* the attention-scoring formulas (AI-service algorithm:
  `calculate_head_pose_score`, `calculate_gaze_score`,
  `PERCLOSCalculator`, `AttentionScorer.calculate`),
* the dashboard's per-face alert generation with cooldowns
  (`MeetingPage` attention handler), and
* the API gateway's 5-second persistence throttle and
  `saveAttentionMetrics`.

Machine reals (Python/JS floats, Go float64) are embedded as exact real
or rational arithmetic; Go/JS maps as association lists; identifiers
(UUIDs, track ids) as naturals.
-/
import Mathlib

/-! ### Association-list maps

Go `map` and JS object lookups/updates are modelled as association lists:
`alGet` is lookup, `alSet` insert-or-replace, `alErase` delete. -/

def alGet {κ α : Type} [DecidableEq κ] : List (κ × α) → κ → Option α
  | [], _ => none
  | e :: t, k => if e.1 = k then some e.2 else alGet t k

def alSet {κ α : Type} [DecidableEq κ] : List (κ × α) → κ → α → List (κ × α)
  | [], k, v => [(k, v)]
  | e :: t, k, v => if e.1 = k then (k, v) :: t else e :: alSet t k v

def alErase {κ α : Type} [DecidableEq κ] : List (κ × α) → κ → List (κ × α)
  | [], _ => []
  | e :: t, k => if e.1 = k then alErase t k else e :: alErase t k

theorem alGet_alSet_self {κ α : Type} [DecidableEq κ] (l : List (κ × α)) (k : κ) (v : α) :
    alGet (alSet l k v) k = some v := by
  induction l with
  | nil => simp [alGet, alSet]
  | cons e t ih =>
      by_cases h : e.1 = k <;> simp [alGet, alSet, h, ih]

theorem alGet_alSet_ne {κ α : Type} [DecidableEq κ] (l : List (κ × α)) (k k' : κ) (v : α)
    (h : k' ≠ k) : alGet (alSet l k v) k' = alGet l k' := by
  induction l with
  | nil => simp [alGet, alSet, Ne.symm h]
  | cons e t ih =>
      by_cases he : e.1 = k
      · subst he
        simp [alGet, alSet, Ne.symm h]
      · simp only [alSet, if_neg he]
        by_cases he' : e.1 = k' <;> simp [alGet, he', ih]

theorem alGet_alErase_self {κ α : Type} [DecidableEq κ] (l : List (κ × α)) (k : κ) :
    alGet (alErase l k) k = none := by
  induction l with
  | nil => simp [alGet, alErase]
  | cons e t ih =>
      by_cases h : e.1 = k <;> simp [alErase, h, alGet, ih]

theorem alGet_alErase_ne {κ α : Type} [DecidableEq κ] (l : List (κ × α)) (k k' : κ)
    (h : k' ≠ k) : alGet (alErase l k) k' = alGet l k' := by
  induction l with
  | nil => simp [alGet, alErase]
  | cons e t ih =>
      by_cases he : e.1 = k
      · subst he
        have hne : e.1 ≠ k' := Ne.symm h
        simp [alErase, alGet, hne, ih]
      · by_cases he' : e.1 = k' <;> simp [alErase, he, alGet, he', h, ih]

theorem alGet_mem {κ α : Type} [DecidableEq κ] (l : List (κ × α)) (k : κ) (v : α)
    (h : alGet l k = some v) : (k, v) ∈ l := by
  induction l with
  | nil => simp [alGet] at h
  | cons e t ih =>
      obtain ⟨k1, v1⟩ := e
      by_cases he : k1 = k
      · subst he
        simp [alGet] at h
        subst h
        exact List.mem_cons_self _ _
      · simp [alGet, he] at h
        exact List.mem_cons_of_mem _ (ih h)

/-! ### DistributionHub (Go `websocket` package)

`Channel` is a bounded Go channel: a non-blocking `select`/`default` send
appends only when the buffer has free capacity.  `Client`, `Room`, `Hub`
mirror the Go structs; rooms key clients by `Client.ID`, hubs key rooms by
meeting UUID (here a natural). -/

structure Channel where
  cap : Nat
  msgs : List Nat
  deriving DecidableEq, Repr

def Channel.send (ch : Channel) (m : Nat) : Channel :=
  if ch.msgs.length < ch.cap then { ch with msgs := ch.msgs ++ [m] } else ch

structure Client where
  id : Nat
  meetingID : Nat
  send : Channel
  deriving DecidableEq, Repr

/-- Room clients, keyed by client id (Go `map[uuid.UUID]*Client`). -/
abbrev Room := List Client

/-- Go map assignment `room.Clients[client.ID] = client`. -/
def Room.setClient (room : Room) (c : Client) : Room :=
  if room.any (fun x => decide (x.id = c.id)) then
    room.map (fun x => if x.id = c.id then c else x)
  else room ++ [c]

/-- Go `delete(room.Clients, client.ID)`. -/
def Room.eraseClient (room : Room) (cid : Nat) : Room :=
  room.filter (fun x => decide (x.id ≠ cid))

structure Hub where
  rooms : List (Nat × Room)
  deriving DecidableEq

def Hub.empty : Hub := ⟨[]⟩

/-- Go `Hub.addClient`: create the room lazily on first register, then
insert the client. -/
def Hub.addClient (h : Hub) (c : Client) : Hub :=
  match alGet h.rooms c.meetingID with
  | none => ⟨alSet h.rooms c.meetingID [c]⟩
  | some room => ⟨alSet h.rooms c.meetingID (room.setClient c)⟩

/-- Go `Hub.removeClient`: delete the client from its meeting's room and
drop the room when its client set becomes empty. -/
def Hub.removeClient (h : Hub) (c : Client) : Hub :=
  match alGet h.rooms c.meetingID with
  | none => h
  | some room =>
      let room2 := room.eraseClient c.id
      if room2.length = 0 then ⟨alErase h.rooms c.meetingID⟩
      else ⟨alSet h.rooms c.meetingID room2⟩

/-- Go `Hub.broadcastToRoom`: a missing room is a no-op; otherwise each
client receives a non-blocking send on its bounded channel. -/
def Hub.broadcastToRoom (h : Hub) (mid : Nat) (msg : Nat) : Hub :=
  match alGet h.rooms mid with
  | none => h
  | some room =>
      ⟨alSet h.rooms mid (room.map (fun c => { c with send := c.send.send msg }))⟩

/-- The three operations serialized by the hub's `Run` loop. -/
inductive HubOp where
  | reg (c : Client)
  | unreg (c : Client)
  | bcast (mid : Nat) (msg : Nat)
  deriving DecidableEq, Repr

def Hub.step (h : Hub) : HubOp → Hub
  | .reg c => h.addClient c
  | .unreg c => h.removeClient c
  | .bcast mid msg => h.broadcastToRoom mid msg

def Hub.run (ops : List HubOp) : Hub :=
  ops.foldl Hub.step Hub.empty

/-! ### Attention scoring (AI-service algorithm)

Python floats are embedded as exact reals.  `roundHalfEven` is Python's
`round` on an integral target (banker's rounding); `pyRound2` is
`round(y, 2)`. -/

noncomputable def roundHalfEven (x : ℝ) : ℤ :=
  if Int.fract x < 1/2 then ⌊x⌋
  else if 1/2 < Int.fract x then ⌊x⌋ + 1
  else if Even ⌊x⌋ then ⌊x⌋ else ⌊x⌋ + 1

noncomputable def pyRound2 (y : ℝ) : ℝ := ((roundHalfEven (y * 100) : ℤ) : ℝ) / 100

/-- Python `calculate_head_pose_score(yaw, pitch, roll)`; thresholds 30
(yaw) and 25 (pitch), `roll` unused as in the source. -/
noncomputable def calculate_head_pose_score (yaw pitch roll : ℝ) : ℝ :=
  let yaw_penalty := min (|yaw| / 30) 1
  let pitch_penalty := min (|pitch| / 25) 1
  max 0 (1 - (yaw_penalty * 0.6 + pitch_penalty * 0.4))

/-- Python `calculate_gaze_score(gaze_x, gaze_y)`; threshold 0.3. -/
noncomputable def calculate_gaze_score (gaze_x gaze_y : ℝ) : ℝ :=
  let distance := Real.sqrt (gaze_x ^ 2 + gaze_y ^ 2)
  max 0 (1 - min (distance / 0.3) 1)

def AttentionScorer.weight_gaze : ℝ := 0.35

def AttentionScorer.weight_head_pose : ℝ := 0.30

def AttentionScorer.weight_eye_openness : ℝ := 0.20

def AttentionScorer.weight_presence : ℝ := 0.15

/-- Python `AttentionScorer.calculate(gaze_score, head_pose_score, ear,
is_present)`: weighted sum, scaled to 0-100 and rounded to two decimal
places (`round(attention * 100, 2)`). -/
noncomputable def AttentionScorer.calculate
    (gaze_score head_pose_score ear : ℝ) (is_present : Bool) : ℝ :=
  let eye_score := if ear > 0.15 then min 1 (ear / 0.25) else 0
  let presence_score : ℝ := if is_present then 1 else 0
  let attention :=
    AttentionScorer.weight_gaze * gaze_score +
    AttentionScorer.weight_head_pose * head_pose_score +
    AttentionScorer.weight_eye_openness * eye_score +
    AttentionScorer.weight_presence * presence_score
  pyRound2 (attention * 100)

/-- The composed per-face scoring pipeline: raw head pose, gaze and EAR
through the sub-score functions into `AttentionScorer.calculate`. -/
noncomputable def pipelineValue
    (yaw pitch roll gaze_x gaze_y ear : ℝ) (tracked : Bool) : ℝ :=
  AttentionScorer.calculate (calculate_gaze_score gaze_x gaze_y)
    (calculate_head_pose_score yaw pitch roll) ear tracked

/-! Spec-side formulas, written from the specification's words
(`clamp`-based sub-scores and the weighted fusion), to be compared with
the source translation above. -/

noncomputable def specClamp (x lo hi : ℝ) : ℝ := max lo (min x hi)

noncomputable def specEyeScore (ear : ℝ) : ℝ :=
  if ear > 0.15 then specClamp (ear / 0.25) 0 1 else 0

noncomputable def specGazeScore (gx gy : ℝ) : ℝ :=
  specClamp (1 - Real.sqrt (gx ^ 2 + gy ^ 2) / 0.3) 0 1

noncomputable def specHeadScore (yaw pitch : ℝ) : ℝ :=
  specClamp (1 - (0.6 * min (|yaw| / 30) 1 + 0.4 * min (|pitch| / 25) 1)) 0 1

noncomputable def specPresence (tracked : Bool) : ℝ := if tracked then 1 else 0

noncomputable def specFusion (yaw pitch gx gy ear : ℝ) (tracked : Bool) : ℝ :=
  0.35 * specGazeScore gx gy + 0.30 * specHeadScore yaw pitch +
    0.20 * specEyeScore ear + 0.15 * specPresence tracked

/-- The claim's reading of the final value: `round(100 * fusion)` rounded
to an integer. -/
noncomputable def specValueInt (yaw pitch gx gy ear : ℝ) (tracked : Bool) : ℤ :=
  roundHalfEven (100 * specFusion yaw pitch gx gy ear tracked)

theorem roundHalfEven_ge (n : ℤ) (x : ℝ) (h : (n : ℝ) ≤ x) : n ≤ roundHalfEven x := by
  have hf : n ≤ ⌊x⌋ := Int.le_floor.mpr h
  unfold roundHalfEven
  split_ifs <;> omega

theorem roundHalfEven_le (n : ℤ) (x : ℝ) (h : x ≤ (n : ℝ)) : roundHalfEven x ≤ n := by
  have hf : ⌊x⌋ ≤ n := by
    have h2 : ⌊x⌋ ≤ ⌊(n : ℝ)⌋ := Int.floor_le_floor h
    simpa using h2
  have hfr : Int.fract x = x - ⌊x⌋ := rfl
  unfold roundHalfEven
  split_ifs with h1 h2 h3
  · exact hf
  · have hge : (1 : ℝ) / 2 ≤ Int.fract x := le_of_not_lt h1
    rw [hfr] at hge
    have hfl : ⌊x⌋ < n := by
      have : (⌊x⌋ : ℝ) < (n : ℝ) := by linarith
      exact_mod_cast this
    omega
  · exact hf
  · have hge : (1 : ℝ) / 2 ≤ Int.fract x := le_of_not_lt h1
    rw [hfr] at hge
    have hfl : ⌊x⌋ < n := by
      have : (⌊x⌋ : ℝ) < (n : ℝ) := by linarith
      exact_mod_cast this
    omega

theorem roundHalfEven_eq_low (n : ℤ) (x : ℝ) (h1 : (n : ℝ) ≤ x)
    (h2 : x < (n : ℝ) + 1/2) : roundHalfEven x = n := by
  have hfl : ⌊x⌋ = n := by
    rw [Int.floor_eq_iff]
    refine ⟨h1, ?_⟩
    push_cast
    linarith
  have hfr : Int.fract x < 1/2 := by
    have hd : Int.fract x = x - ⌊x⌋ := rfl
    rw [hd, hfl]
    push_cast
    linarith
  unfold roundHalfEven
  rw [if_pos hfr, hfl]

theorem roundHalfEven_eq_high (n : ℤ) (x : ℝ) (h1 : (n : ℝ) + 1/2 < x)
    (h2 : x < (n : ℝ) + 1) : roundHalfEven x = n + 1 := by
  have hfl : ⌊x⌋ = n := by
    rw [Int.floor_eq_iff]
    constructor
    · linarith
    · push_cast
      linarith
  have hd : Int.fract x = x - ⌊x⌋ := rfl
  have hfr1 : ¬ Int.fract x < 1/2 := by
    rw [hd, hfl]
    push_cast
    intro hc
    linarith
  have hfr2 : 1/2 < Int.fract x := by
    rw [hd, hfl]
    push_cast
    linarith
  unfold roundHalfEven
  rw [if_neg hfr1, if_pos hfr2, hfl]

theorem pyRound2_nonneg (y : ℝ) (h : 0 ≤ y) : 0 ≤ pyRound2 y := by
  unfold pyRound2
  have h1 : (0 : ℤ) ≤ roundHalfEven (y * 100) :=
    roundHalfEven_ge 0 _ (by push_cast; linarith)
  have h2 : (0 : ℝ) ≤ ((roundHalfEven (y * 100) : ℤ) : ℝ) := by exact_mod_cast h1
  linarith

theorem pyRound2_le_100 (y : ℝ) (h : y ≤ 100) : pyRound2 y ≤ 100 := by
  unfold pyRound2
  have h1 : roundHalfEven (y * 100) ≤ 10000 :=
    roundHalfEven_le 10000 _ (by push_cast; linarith)
  have h2 : ((roundHalfEven (y * 100) : ℤ) : ℝ) ≤ 10000 := by exact_mod_cast h1
  linarith

theorem gaze_score_eq_spec (gx gy : ℝ) :
    calculate_gaze_score gx gy = specGazeScore gx gy := by
  simp only [calculate_gaze_score, specGazeScore, specClamp]
  have hd0 : 0 ≤ Real.sqrt (gx ^ 2 + gy ^ 2) := Real.sqrt_nonneg _
  set d := Real.sqrt (gx ^ 2 + gy ^ 2) with hd
  have hq : 0 ≤ d / 0.3 := by positivity
  rcases le_total (d / 0.3) 1 with h | h
  · rw [min_eq_left h, min_eq_left (by linarith : (1 : ℝ) - d / 0.3 ≤ 1)]
  · rw [min_eq_right h, min_eq_left (by linarith : (1 : ℝ) - d / 0.3 ≤ 1),
      max_eq_left (by linarith : (1 : ℝ) - d / 0.3 ≤ 0)]
    norm_num

theorem head_pose_score_eq_spec (yaw pitch roll : ℝ) :
    calculate_head_pose_score yaw pitch roll = specHeadScore yaw pitch := by
  unfold calculate_head_pose_score specHeadScore specClamp
  have h1 : 0 ≤ min (|yaw| / 30) 1 := le_min (by positivity) zero_le_one
  have h2 : 0 ≤ min (|pitch| / 25) 1 := le_min (by positivity) zero_le_one
  rw [min_eq_left (by nlinarith :
    (1 : ℝ) - (0.6 * min (|yaw| / 30) 1 + 0.4 * min (|pitch| / 25) 1) ≤ 1)]
  congr 1
  ring

theorem eye_score_eq_spec (ear : ℝ) :
    (if ear > 0.15 then min 1 (ear / 0.25) else 0) = specEyeScore ear := by
  unfold specEyeScore specClamp
  by_cases h : ear > 0.15
  · rw [if_pos h, if_pos h]
    have he : (0 : ℝ) < ear := lt_trans (by norm_num) h
    have hmin : (0 : ℝ) ≤ min (ear / 0.25) 1 := le_min (by positivity) zero_le_one
    rw [max_eq_right hmin, min_comm]
  · rw [if_neg h, if_neg h]

theorem gaze_score_mem (gx gy : ℝ) :
    0 ≤ calculate_gaze_score gx gy ∧ calculate_gaze_score gx gy ≤ 1 := by
  unfold calculate_gaze_score
  have hd0 : 0 ≤ Real.sqrt (gx ^ 2 + gy ^ 2) := Real.sqrt_nonneg _
  have hm : 0 ≤ min (Real.sqrt (gx ^ 2 + gy ^ 2) / 0.3) 1 :=
    le_min (by positivity) zero_le_one
  exact ⟨le_max_left _ _, max_le zero_le_one (by linarith)⟩

theorem head_pose_score_mem (yaw pitch roll : ℝ) :
    0 ≤ calculate_head_pose_score yaw pitch roll ∧
      calculate_head_pose_score yaw pitch roll ≤ 1 := by
  unfold calculate_head_pose_score
  have h1 : 0 ≤ min (|yaw| / 30) 1 := le_min (by positivity) zero_le_one
  have h2 : 0 ≤ min (|pitch| / 25) 1 := le_min (by positivity) zero_le_one
  exact ⟨le_max_left _ _, max_le zero_le_one (by nlinarith)⟩

theorem calculate_mem (g hp e : ℝ) (p : Bool)
    (hg0 : 0 ≤ g) (hg1 : g ≤ 1) (hh0 : 0 ≤ hp) (hh1 : hp ≤ 1) :
    0 ≤ AttentionScorer.calculate g hp e p ∧
      AttentionScorer.calculate g hp e p ≤ 100 := by
  unfold AttentionScorer.calculate AttentionScorer.weight_gaze
    AttentionScorer.weight_head_pose AttentionScorer.weight_eye_openness
    AttentionScorer.weight_presence
  have he : 0 ≤ (if e > 0.15 then min 1 (e / 0.25) else 0) ∧
      (if e > 0.15 then min 1 (e / 0.25) else 0) ≤ 1 := by
    by_cases h : e > 0.15
    · rw [if_pos h]
      have he0 : (0 : ℝ) < e := lt_trans (by norm_num) h
      exact ⟨le_min zero_le_one (by positivity), min_le_left _ _⟩
    · rw [if_neg h]
      norm_num
  have hpb : 0 ≤ (if p then (1 : ℝ) else 0) ∧ (if p then (1 : ℝ) else 0) ≤ 1 := by
    cases p <;> norm_num
  obtain ⟨he0, he1⟩ := he
  obtain ⟨hp0, hp1⟩ := hpb
  constructor
  · apply pyRound2_nonneg
    nlinarith
  · apply pyRound2_le_100
    nlinarith

theorem pyRound2_eq_low (y : ℝ) (n : ℤ) (h1 : (n : ℝ) ≤ y * 100)
    (h2 : y * 100 < (n : ℝ) + 1/2) : pyRound2 y = (n : ℝ) / 100 := by
  unfold pyRound2
  rw [roundHalfEven_eq_low n _ h1 h2]

theorem pyRound2_eq_high (y : ℝ) (n : ℤ) (h1 : (n : ℝ) + 1/2 < y * 100)
    (h2 : y * 100 < (n : ℝ) + 1) : pyRound2 y = ((n : ℝ) + 1) / 100 := by
  unfold pyRound2
  rw [roundHalfEven_eq_high n _ h1 h2]
  push_cast
  ring

/-! ### Feature records (spec data model) -/

structure FeatureRecord where
  headPose : Option (ℝ × ℝ × ℝ)
  gaze : Option (ℝ × ℝ)
  ear : Option ℝ
  tracked : Bool

/-- Modelled from the spec: the scoring entry point over a full feature
record with absent fields is not among the sources under `src` (the
algorithm document gives only the per-feature formulas); per the
specification, a missing gaze or head pose degrades to its defined
default sub-score 0, a missing EAR defaults to 0 (scored as closed
eyes), and presence follows the tracked flag. -/
noncomputable def scoreFeatures (fr : FeatureRecord) : ℝ :=
  let g := match fr.gaze with
    | some p => calculate_gaze_score p.1 p.2
    | none => 0
  let hp := match fr.headPose with
    | some p => calculate_head_pose_score p.1 p.2.1 p.2.2
    | none => 0
  let e := match fr.ear with
    | some v => v
    | none => 0
  AttentionScorer.calculate g hp e fr.tracked

/-- Claim C1 (amended): for every feature input the returned value equals
the spec's weighted linear fusion of the clamp-form sub-scores, scaled by
100 and rounded to TWO DECIMAL PLACES (`round(attention * 100, 2)`), not
to an integer. -/
theorem claim_C1_amended (yaw pitch roll gx gy ear : ℝ) (tracked : Bool) :
    pipelineValue yaw pitch roll gx gy ear tracked
      = pyRound2 (100 * specFusion yaw pitch gx gy ear tracked) := by
  simp only [pipelineValue, AttentionScorer.calculate, specFusion,
    AttentionScorer.weight_gaze, AttentionScorer.weight_head_pose,
    AttentionScorer.weight_eye_openness, AttentionScorer.weight_presence,
    gaze_score_eq_spec, head_pose_score_eq_spec, eye_score_eq_spec,
    specPresence]
  congr 1
  ring

/-- Claim C1 is refuted as stated: at gaze `(0,0)`, zero head pose,
EAR `0.21`, tracked, the code returns `96.8` (two-decimal rounding of
`round(0.968 * 100, 2)`) while `round(100 * fusion)` rounded to an
integer is `97`. -/
theorem claim_C1_counterexample :
    pipelineValue 0 0 0 0 0 0.21 true
      ≠ ((specValueInt 0 0 0 0 0.21 true : ℤ) : ℝ) := by
  have hg : calculate_gaze_score 0 0 = 1 := by
    simp only [calculate_gaze_score]
    norm_num [Real.sqrt_zero]
  have hh : calculate_head_pose_score 0 0 0 = 1 := by
    simp only [calculate_head_pose_score]
    norm_num
  have hlhs : pipelineValue 0 0 0 0 0 0.21 true = 96.8 := by
    unfold pipelineValue
    rw [hg, hh]
    simp only [AttentionScorer.calculate, AttentionScorer.weight_gaze,
      AttentionScorer.weight_head_pose, AttentionScorer.weight_eye_openness,
      AttentionScorer.weight_presence]
    rw [if_pos (by norm_num : (0.21 : ℝ) > 0.15)]
    rw [show min (1 : ℝ) ((0.21 : ℝ) / 0.25) = 0.84 from by
      rw [min_eq_right (by norm_num)]; norm_num]
    simp only [if_true]
    rw [show (0.35 * 1 + 0.30 * 1 + 0.20 * 0.84 + 0.15 * 1 : ℝ) * 100 = 96.8 by
      norm_num]
    rw [pyRound2_eq_low 96.8 9680 (by norm_num) (by norm_num)]
    norm_num
  have hrhs : specValueInt 0 0 0 0 0.21 true = 97 := by
    have hgz : specGazeScore 0 0 = 1 := by
      rw [← gaze_score_eq_spec, hg]
    have hhd : specHeadScore 0 0 = 1 := by
      rw [← head_pose_score_eq_spec 0 0 0, hh]
    have hey : specEyeScore 0.21 = 0.84 := by
      rw [← eye_score_eq_spec]
      rw [if_pos (by norm_num : (0.21 : ℝ) > 0.15)]
      rw [min_eq_right (by norm_num)]
      norm_num
    unfold specValueInt specFusion
    rw [hgz, hhd, hey]
    simp only [specPresence, if_true]
    rw [show (100 : ℝ) * (0.35 * 1 + 0.30 * 1 + 0.20 * 0.84 + 0.15 * 1) = 96.8 by
      norm_num]
    rw [show (97 : ℤ) = 96 + 1 by norm_num]
    exact roundHalfEven_eq_high 96 _ (by norm_num) (by norm_num)
  rw [hlhs, hrhs]
  norm_num

/-- Claim C2: the scorer is total over every feature record, including
records with absent landmarks, head pose, gaze or EAR; the value always
lies in [0,100]; and a record with every sub-feature missing still gets a
score (15 when tracked) — missing sub-features degrade to 0 rather than
being skipped. -/
theorem claim_C2 :
    (∀ fr : FeatureRecord, 0 ≤ scoreFeatures fr ∧ scoreFeatures fr ≤ 100) ∧
    (∀ fr : FeatureRecord, fr.gaze = none → fr.headPose = none →
      fr.ear = none → fr.tracked = true → scoreFeatures fr = 15) := by
  constructor
  · intro fr
    obtain ⟨hpo, go, eo, tr⟩ := fr
    simp only [scoreFeatures]
    apply calculate_mem
    · cases go with
      | none => norm_num
      | some p => exact (gaze_score_mem p.1 p.2).1
    · cases go with
      | none => norm_num
      | some p => exact (gaze_score_mem p.1 p.2).2
    · cases hpo with
      | none => norm_num
      | some p => exact (head_pose_score_mem p.1 p.2.1 p.2.2).1
    · cases hpo with
      | none => norm_num
      | some p => exact (head_pose_score_mem p.1 p.2.1 p.2.2).2
  · intro fr hg hh he ht
    obtain ⟨hpo, go, eo, tr⟩ := fr
    simp only at hg hh he ht
    subst hg
    subst hh
    subst he
    subst ht
    simp only [scoreFeatures, AttentionScorer.calculate,
      AttentionScorer.weight_gaze, AttentionScorer.weight_head_pose,
      AttentionScorer.weight_eye_openness, AttentionScorer.weight_presence]
    rw [if_neg (by norm_num : ¬ (0 : ℝ) > 0.15)]
    simp only [if_true]
    rw [show (0.35 * 0 + 0.30 * 0 + 0.20 * 0 + 0.15 * 1 : ℝ) * 100 = 15 by norm_num]
    rw [pyRound2_eq_low 15 1500 (by norm_num) (by norm_num)]
    norm_num

/-- Witness for claim C2: the all-missing tracked record scores exactly 15
and lies inside [0,100]. -/
theorem claim_C2_witness :
    scoreFeatures ⟨none, none, none, true⟩ = 15 ∧
      0 ≤ scoreFeatures ⟨none, none, none, true⟩ ∧
      scoreFeatures ⟨none, none, none, true⟩ ≤ 100 :=
  ⟨claim_C2.2 ⟨none, none, none, true⟩ rfl rfl rfl rfl,
   (claim_C2.1 ⟨none, none, none, true⟩).1,
   (claim_C2.1 ⟨none, none, none, true⟩).2⟩

theorem sqrt_c8_lb : (0.05385 : ℝ) < Real.sqrt 0.0029 := by
  rw [show (0.0029 : ℝ) = 0.05385 ^ 2 + 0.0000001775 by norm_num]
  nlinarith [Real.sq_sqrt (by norm_num : (0 : ℝ) ≤ 0.05385 ^ 2 + 0.0000001775),
    Real.sqrt_nonneg (0.05385 ^ 2 + 0.0000001775 : ℝ)]

theorem sqrt_c8_ub : Real.sqrt 0.0029 < 0.05386 := by
  nlinarith [Real.sq_sqrt (by norm_num : (0 : ℝ) ≤ 0.0029),
    Real.sqrt_nonneg (0.0029 : ℝ)]

theorem c8_gaze_bounds :
    0.82046 < calculate_gaze_score 0.05 0.02 ∧
      calculate_gaze_score 0.05 0.02 < 0.8205 := by
  have hsum : ((0.05 : ℝ) ^ 2 + (0.02 : ℝ) ^ 2) = 0.0029 := by norm_num
  have hdiv : Real.sqrt 0.0029 / 0.3 = Real.sqrt 0.0029 * (10 / 3) := by ring
  simp only [calculate_gaze_score, hsum, hdiv]
  have hub := sqrt_c8_ub
  have hlb := sqrt_c8_lb
  rw [min_eq_left (by linarith : Real.sqrt 0.0029 * (10 / 3) ≤ 1)]
  rw [max_eq_right (by linarith : (0 : ℝ) ≤ 1 - Real.sqrt 0.0029 * (10 / 3))]
  constructor <;> linarith

theorem c8_head_eq : calculate_head_pose_score 40 5 0 = 0.32 := by
  simp only [calculate_head_pose_score]
  rw [abs_of_nonneg (by norm_num : (0 : ℝ) ≤ 40),
    abs_of_nonneg (by norm_num : (0 : ℝ) ≤ 5)]
  rw [min_eq_right (by norm_num : (1 : ℝ) ≤ 40 / 30)]
  rw [min_eq_left (by norm_num : (5 : ℝ) / 25 ≤ 1)]
  rw [max_eq_right (by norm_num : (0 : ℝ) ≤ 1 - (1 * 0.6 + 5 / 25 * 0.4))]
  norm_num

theorem c8_value_eq : pipelineValue 40 5 0 0.05 0.02 0.28 true = 73.32 := by
  obtain ⟨hg1, hg2⟩ := c8_gaze_bounds
  unfold pipelineValue
  rw [c8_head_eq]
  simp only [AttentionScorer.calculate, AttentionScorer.weight_gaze,
    AttentionScorer.weight_head_pose, AttentionScorer.weight_eye_openness,
    AttentionScorer.weight_presence]
  rw [if_pos (by norm_num : (0.28 : ℝ) > 0.15)]
  rw [min_eq_left (by norm_num : (1 : ℝ) ≤ 0.28 / 0.25)]
  simp only [if_true]
  rw [pyRound2_eq_high _ 7331 (by push_cast; nlinarith) (by push_cast; nlinarith)]
  norm_num

/-- Claim C8 is refuted as stated: at yaw=40, pitch=5, EAR=0.28,
gaze=(0.05,0.02), tracked, the fused value is 73.32, not 80 (the yaw
penalty saturates at 40 ≥ 30 degrees, so headScore is 0.32, not ≈0.73). -/
theorem claim_C8_counterexample :
    pipelineValue 40 5 0 0.05 0.02 0.28 true ≠ 80 := by
  rw [c8_value_eq]
  norm_num

/-- Claim C8 (amended): at yaw=40, pitch=5, EAR=0.28, gaze=(0.05,0.02),
tracked, the sub-scores are headScore = 0.32 (yaw penalty saturated),
gazeScore = 1 - sqrt(0.0029)/0.3 ≈ 0.8205, eyeScore = 1.0, presence = 1.0,
and the fused attention value is 73.32. -/
theorem claim_C8_amended :
    calculate_head_pose_score 40 5 0 = 0.32 ∧
    (0.82046 < calculate_gaze_score 0.05 0.02 ∧
      calculate_gaze_score 0.05 0.02 < 0.8205) ∧
    specEyeScore 0.28 = 1 ∧
    specPresence true = 1 ∧
    pipelineValue 40 5 0 0.05 0.02 0.28 true = 73.32 := by
  refine ⟨c8_head_eq, c8_gaze_bounds, ?_, ?_, c8_value_eq⟩
  · unfold specEyeScore specClamp
    rw [if_pos (by norm_num : (0.28 : ℝ) > 0.15)]
    rw [min_eq_right (by norm_num : (1 : ℝ) ≤ 0.28 / 0.25)]
    norm_num
  · simp [specPresence]

/-! ### PERCLOS sub-estimator (AI-service algorithm)

`deque(maxlen=window_size)` of EAR samples; EAR values are embedded as
rationals. -/

def PERCLOSCalculator.EAR_THRESHOLD : ℚ := 0.25

structure PERCLOSCalculator where
  window_size : Nat
  ear_history : List ℚ
  deriving DecidableEq, Repr

def PERCLOSCalculator.init (window_size : Nat) : PERCLOSCalculator :=
  ⟨window_size, []⟩

/-- Python `PERCLOSCalculator.update(ear)`: append to the bounded deque,
then return the fraction of the window strictly below the threshold. -/
def PERCLOSCalculator.update (c : PERCLOSCalculator) (ear : ℚ) :
    PERCLOSCalculator × ℚ :=
  let hist := c.ear_history ++ [ear]
  let hist2 := if c.window_size < hist.length
    then hist.drop (hist.length - c.window_size) else hist
  let closed_frames :=
    hist2.countP (fun e => decide (e < PERCLOSCalculator.EAR_THRESHOLD))
  (⟨c.window_size, hist2⟩, (closed_frames : ℚ) / (hist2.length : ℚ))

/-- Python `PERCLOSCalculator.is_drowsy(perclos)`. -/
def PERCLOSCalculator.is_drowsy (perclos : ℚ) : Bool :=
  decide (perclos > 0.8)

/-- Feed a sequence of EAR samples, keeping the last returned perclos. -/
def PERCLOSCalculator.updateMany (c : PERCLOSCalculator) (ears : List ℚ) :
    PERCLOSCalculator × ℚ :=
  ears.foldl (fun acc e => acc.1.update e) (c, 0)

theorem countP_replicate_pos {α : Type} (p : α → Bool) (a : α) (n : Nat)
    (h : p a = true) : (List.replicate n a).countP p = n := by
  induction n with
  | zero => simp
  | succ n ih => simp [List.replicate_succ, List.countP_cons, h, ih]

theorem countP_replicate_neg {α : Type} (p : α → Bool) (a : α) (n : Nat)
    (h : p a = false) : (List.replicate n a).countP p = 0 := by
  induction n with
  | zero => simp
  | succ n ih => simp [List.replicate_succ, List.countP_cons, h, ih]

/-- Feeding at most `w` samples into a fresh window never trims: the
history is exactly the fed sequence. -/
theorem updateMany_history (w : Nat) (ears : List ℚ) (h : ears.length ≤ w) :
    ((PERCLOSCalculator.init w).updateMany ears).1 = ⟨w, ears⟩ := by
  induction ears using List.reverseRecOn with
  | nil => rfl
  | append_singleton l e ih =>
      have hl : l.length ≤ w := by
        simp at h
        omega
      have hstep : (PERCLOSCalculator.init w).updateMany (l ++ [e])
          = ((PERCLOSCalculator.init w).updateMany l).1.update e := by
        simp [PERCLOSCalculator.updateMany, List.foldl_append]
      rw [hstep, ih hl]
      simp only [PERCLOSCalculator.update]
      rw [if_neg (by simp at h ⊢; omega)]

/-- The perclos returned by the last of at most `w` updates is the
below-threshold fraction of the full fed sequence. -/
theorem updateMany_perclos (w : Nat) (l : List ℚ) (e : ℚ)
    (h : (l ++ [e]).length ≤ w) :
    ((PERCLOSCalculator.init w).updateMany (l ++ [e])).2
      = (((l ++ [e]).countP
            (fun x => decide (x < PERCLOSCalculator.EAR_THRESHOLD)) : ℚ))
        / (((l ++ [e]).length : ℚ)) := by
  have hl : l.length ≤ w := by
    simp at h
    omega
  have hstep : (PERCLOSCalculator.init w).updateMany (l ++ [e])
      = ((PERCLOSCalculator.init w).updateMany l).1.update e := by
    simp [PERCLOSCalculator.updateMany, List.foldl_append]
  rw [hstep, updateMany_history w l hl]
  simp only [PERCLOSCalculator.update]
  rw [if_neg (by simp at h ⊢; omega)]

/-- Claim C3: with a 60-sample window and threshold 0.25, the EAR sequence
`[0.1]*48 ++ [0.3]*12` yields perclos = 0.8 (the fraction of window
samples strictly below 0.25); drowsiness requires perclos > 0.8 strictly,
so perclos = 0.8 is not drowsy. -/
theorem claim_C3 :
    ((PERCLOSCalculator.init 60).updateMany
        (List.replicate 48 (0.1 : ℚ) ++ List.replicate 12 0.3)).2 = 0.8 ∧
    PERCLOSCalculator.is_drowsy 0.8 = false ∧
    (∀ p : ℚ, PERCLOSCalculator.is_drowsy p = true ↔ 0.8 < p) := by
  refine ⟨?_, ?_, ?_⟩
  · have hseq : List.replicate 48 (0.1 : ℚ) ++ List.replicate 12 (0.3 : ℚ)
        = (List.replicate 48 (0.1 : ℚ) ++ List.replicate 11 (0.3 : ℚ))
          ++ [(0.3 : ℚ)] := by
      have h12 : List.replicate 12 (0.3 : ℚ)
          = List.replicate 11 (0.3 : ℚ) ++ [(0.3 : ℚ)] := by
        rw [show (12 : Nat) = 11 + 1 from rfl, List.replicate_add,
          List.replicate_one]
      rw [h12, ← List.append_assoc]
    rw [hseq, updateMany_perclos 60 _ _ (by simp), ← hseq]
    have h01 : decide ((0.1 : ℚ) < PERCLOSCalculator.EAR_THRESHOLD) = true := by
      norm_num [PERCLOSCalculator.EAR_THRESHOLD]
    have h03 : decide ((0.3 : ℚ) < PERCLOSCalculator.EAR_THRESHOLD) = false := by
      norm_num [PERCLOSCalculator.EAR_THRESHOLD]
    rw [List.countP_append,
      countP_replicate_pos
        (fun x : ℚ => decide (x < PERCLOSCalculator.EAR_THRESHOLD)) 0.1 48 h01,
      countP_replicate_neg
        (fun x : ℚ => decide (x < PERCLOSCalculator.EAR_THRESHOLD)) 0.3 12 h03]
    simp only [List.length_append, List.length_replicate]
    norm_num
  · norm_num [PERCLOSCalculator.is_drowsy]
  · intro p
    simp [PERCLOSCalculator.is_drowsy]

/-! ### Alert generation with cooldowns (dashboard `MeetingPage` handler)

JS timestamps (`Date.now()` ms) are integers, scores rationals.  The JS
cooldown check is `!alertCooldowns.current[key] || now - lastFired >
limit`: an absent entry and a stored `0` are both falsy. -/

inductive AlertType where
  | drowsy
  | looking_away
  | not_attentive
  deriving DecidableEq, Repr

inductive Severity where
  | info
  | warning
  | critical
  deriving DecidableEq, Repr

/-- Type-specific cooldown in milliseconds (5000 for drowsy and
looking_away, 10000 for the low-attention alert). -/
def cooldownMs : AlertType → Int
  | .drowsy => 5000
  | .looking_away => 5000
  | .not_attentive => 10000

structure GazeInfo where
  is_looking_at_camera : Bool
  deriving DecidableEq, Repr

structure HeadPoseInfo where
  yaw : ℚ
  pitch : ℚ
  roll : ℚ
  deriving DecidableEq, Repr

structure BlinkInfo where
  is_drowsy : Bool
  avg_ear : ℚ
  deriving DecidableEq, Repr

structure FaceResult where
  track_id : Nat
  attention_score : ℚ
  gaze : Option GazeInfo
  head_pose : Option HeadPoseInfo
  blink : Option BlinkInfo
  deriving DecidableEq, Repr

/-- JS `result.gaze?.is_looking_at_camera === false ||
(result.head_pose?.yaw && Math.abs(result.head_pose.yaw) > 30)`;
a missing field and a zero yaw are falsy. -/
def isLookingAwayOf (r : FaceResult) : Bool :=
  (match r.gaze with
    | some g => !g.is_looking_at_camera
    | none => false) ||
  (match r.head_pose with
    | some hp => decide (hp.yaw ≠ 0) && decide (|hp.yaw| > 30)
    | none => false)

/-- JS `result.blink?.is_drowsy === true`. -/
def isDrowsyOf (r : FaceResult) : Bool :=
  match r.blink with
  | some b => b.is_drowsy
  | none => false

abbrev Cooldowns := List ((Nat × AlertType) × Int)

/-- JS `!alertCooldowns.current[key] || now - alertCooldowns.current[key]
> limit`. -/
def cooldownOpen (cd : Cooldowns) (key : Nat × AlertType) (now limit : Int) :
    Bool :=
  match alGet cd key with
  | none => true
  | some t => decide (t = 0) || decide (now - t > limit)

/-- One face of the dashboard handler's `data.forEach` body: the three
alert branches in source order (drowsy, looking_away, low attention), each
guarded by its own cooldown key; firing stores `now` under the key. -/
def processFace (cd : Cooldowns) (now : Int) (r : FaceResult) :
    Cooldowns × List (AlertType × Severity) :=
  let d := isDrowsyOf r
  let la := isLookingAwayOf r
  let s1 :=
    if d && cooldownOpen cd (r.track_id, .drowsy) now 5000 then
      (alSet cd (r.track_id, .drowsy) now,
        [(AlertType.drowsy, Severity.critical)])
    else (cd, [])
  let s2 :=
    if la && cooldownOpen s1.1 (r.track_id, .looking_away) now 5000 then
      (alSet s1.1 (r.track_id, .looking_away) now,
        s1.2 ++ [(AlertType.looking_away, Severity.warning)])
    else s1
  if decide (r.attention_score < 40) && !d && !la &&
      cooldownOpen s2.1 (r.track_id, .not_attentive) now 10000 then
    (alSet s2.1 (r.track_id, .not_attentive) now,
      s2.2 ++ [(AlertType.not_attentive, Severity.info)])
  else s2

theorem cooldownOpen_iff (cd : Cooldowns) (key : Nat × AlertType)
    (now limit : Int) :
    cooldownOpen cd key now limit = true ↔
      (alGet cd key = none ∨ alGet cd key = some 0 ∨
        ∃ t, alGet cd key = some t ∧ now - t > limit) := by
  unfold cooldownOpen
  cases h : alGet cd key with
  | none => simp [h]
  | some t => simp [h]

theorem cooldownOpen_alSet_ne (cd : Cooldowns) (k k' : Nat × AlertType)
    (v now limit : Int) (h : k ≠ k') :
    cooldownOpen (alSet cd k' v) k now limit = cooldownOpen cd k now limit := by
  unfold cooldownOpen
  rw [alGet_alSet_ne cd k' k v h]

theorem mem_processFace_drowsy (cd : Cooldowns) (now : Int) (r : FaceResult)
    (sev : Severity) :
    ((AlertType.drowsy, sev) ∈ (processFace cd now r).2)
      ↔ (sev = Severity.critical ∧ isDrowsyOf r = true ∧
          cooldownOpen cd (r.track_id, AlertType.drowsy) now 5000 = true) := by
  simp only [processFace]
  split_ifs with h1 h2 h3 h3 h2 h3 h3 <;>
    simp_all [Bool.and_eq_true, decide_eq_true_eq, cooldownOpen_alSet_ne,
      List.mem_append]

theorem mem_processFace_looking (cd : Cooldowns) (now : Int) (r : FaceResult)
    (sev : Severity) :
    ((AlertType.looking_away, sev) ∈ (processFace cd now r).2)
      ↔ (sev = Severity.warning ∧ isLookingAwayOf r = true ∧
          cooldownOpen cd (r.track_id, AlertType.looking_away) now 5000
            = true) := by
  simp only [processFace]
  split_ifs with h1 h2 h3 h3 h2 h3 h3 <;>
    simp_all [Bool.and_eq_true, decide_eq_true_eq, cooldownOpen_alSet_ne,
      List.mem_append]

theorem mem_processFace_na (cd : Cooldowns) (now : Int) (r : FaceResult)
    (sev : Severity) :
    ((AlertType.not_attentive, sev) ∈ (processFace cd now r).2)
      ↔ (sev = Severity.info ∧ r.attention_score < 40 ∧
          isDrowsyOf r = false ∧ isLookingAwayOf r = false ∧
          cooldownOpen cd (r.track_id, AlertType.not_attentive) now 10000
            = true) := by
  simp only [processFace]
  split_ifs with h1 h2 h3 h3 h2 h3 h3 <;>
    simp_all [Bool.and_eq_true, decide_eq_true_eq, cooldownOpen_alSet_ne,
      List.mem_append]

theorem fires_requires_open (cd : Cooldowns) (now : Int) (r : FaceResult)
    (ty : AlertType) (sev : Severity)
    (hmem : (ty, sev) ∈ (processFace cd now r).2) :
    cooldownOpen cd (r.track_id, ty) now (cooldownMs ty) = true := by
  cases ty
  · exact ((mem_processFace_drowsy cd now r sev).mp hmem).2.2
  · exact ((mem_processFace_looking cd now r sev).mp hmem).2.2
  · exact ((mem_processFace_na cd now r sev).mp hmem).2.2.2.2

theorem fired_updates (cd : Cooldowns) (now : Int) (r : FaceResult)
    (ty : AlertType) (sev : Severity)
    (hmem : (ty, sev) ∈ (processFace cd now r).2) :
    alGet (processFace cd now r).1 (r.track_id, ty) = some now := by
  cases ty <;>
    (simp only [processFace] at hmem ⊢
     split_ifs at hmem ⊢ with h1 h2 h3 h3 h2 h3 h3 <;>
       simp_all [alGet_alSet_self, alGet_alSet_ne, Bool.and_eq_true,
         List.mem_append])

/-- A face below the low-attention threshold, neither drowsy nor looking
away. -/
def lowFace : FaceResult := ⟨7, 30, none, none, none⟩

/-- A face simultaneously drowsy and looking away, with a high score. -/
def bothFace : FaceResult := ⟨8, 90, some ⟨false⟩, none, some ⟨true, 0.1⟩⟩

/-- A drowsy face with a low attention score. -/
def drowsyLowFace : FaceResult := ⟨9, 30, none, none, some ⟨true, 0.1⟩⟩

/-- Claim C5 (amended): an alert fires at `now` only if its
`(trackId, alertType)` cooldown entry is unset, is 0 (the code treats a
stored timestamp 0 as never-fired), or `now - lastFired > cooldown`
(5s for looking_away/drowsy, 10s for not_attentive); firing stores `now`.
Consequently for any fire time `t0 > 0`, re-triggering not_attentive at
`t0+5s` is suppressed and re-triggering at `t0+11s` fires again. -/
theorem claim_C5_amended (t0 : Int) (h : 0 < t0) :
    ((∀ (cd : Cooldowns) (now : Int) (r : FaceResult) (ty : AlertType)
        (sev : Severity), (ty, sev) ∈ (processFace cd now r).2 →
        (alGet cd (r.track_id, ty) = none ∨
          alGet cd (r.track_id, ty) = some 0 ∨
          ∃ t, alGet cd (r.track_id, ty) = some t ∧ now - t > cooldownMs ty)) ∧
      (∀ (cd : Cooldowns) (now : Int) (r : FaceResult) (ty : AlertType)
        (sev : Severity), (ty, sev) ∈ (processFace cd now r).2 →
        alGet (processFace cd now r).1 (r.track_id, ty) = some now)) ∧
    (processFace [] t0 lowFace).2
      = [(AlertType.not_attentive, Severity.info)] ∧
    (processFace (processFace [] t0 lowFace).1 (t0 + 5000) lowFace).2 = [] ∧
    (processFace (processFace [] t0 lowFace).1 (t0 + 11000) lowFace).2
      = [(AlertType.not_attentive, Severity.info)] := by
  refine ⟨⟨?_, ?_⟩, ?_, ?_, ?_⟩
  · intro cd now r ty sev hmem
    exact (cooldownOpen_iff cd (r.track_id, ty) now (cooldownMs ty)).mp
      (fires_requires_open cd now r ty sev hmem)
  · intro cd now r ty sev hmem
    exact fired_updates cd now r ty sev hmem
  · norm_num [processFace, cooldownOpen, isDrowsyOf, isLookingAwayOf,
      lowFace, alGet, alSet]
  · norm_num [processFace, cooldownOpen, isDrowsyOf, isLookingAwayOf,
      lowFace, alGet, alSet]
    rw [if_neg (by omega : ¬ t0 = 0)]
  · norm_num [processFace, cooldownOpen, isDrowsyOf, isLookingAwayOf,
      lowFace, alGet, alSet]

/-- Witness for claim C5 (amended) at the concrete fire time t0 = 1. -/
theorem claim_C5_witness :
    (processFace [] 1 lowFace).2
      = [(AlertType.not_attentive, Severity.info)] ∧
    (processFace (processFace [] 1 lowFace).1 (1 + 5000) lowFace).2 = [] ∧
    (processFace (processFace [] 1 lowFace).1 (1 + 11000) lowFace).2
      = [(AlertType.not_attentive, Severity.info)] :=
  (claim_C5_amended 1 (by decide)).2

/-- Claim C5 is refuted as stated: firing not_attentive at t = 0 stores
timestamp 0, which the JS falsiness check treats as never-fired, so the
re-trigger at t = 5000 ms is NOT suppressed even though the 10s cooldown
has not elapsed. -/
theorem claim_C5_counterexample :
    (processFace [] 0 lowFace).2
      = [(AlertType.not_attentive, Severity.info)] ∧
    (processFace (processFace [] 0 lowFace).1 5000 lowFace).2
      = [(AlertType.not_attentive, Severity.info)] := by
  constructor <;>
    norm_num [processFace, cooldownOpen, isDrowsyOf, isLookingAwayOf,
      lowFace, alGet, alSet]

/-- Claim C6 (amended): the not_attentive info alert fires exactly when
score < 40 AND the face is neither drowsy nor looking away AND its own
cooldown is open; drowsy and looking_away are evaluated independently and
may co-fire in the same frame. -/
theorem claim_C6_amended :
    (∀ (cd : Cooldowns) (now : Int) (r : FaceResult),
      ((AlertType.not_attentive, Severity.info) ∈ (processFace cd now r).2
        ↔ (r.attention_score < 40 ∧ isDrowsyOf r = false ∧
            isLookingAwayOf r = false ∧
            cooldownOpen cd (r.track_id, AlertType.not_attentive) now 10000
              = true))) ∧
    (processFace [] 1 bothFace).2
      = [(AlertType.drowsy, Severity.critical),
         (AlertType.looking_away, Severity.warning)] := by
  constructor
  · intro cd now r
    rw [mem_processFace_na]
    simp
  · norm_num [processFace, cooldownOpen, isDrowsyOf, isLookingAwayOf,
      bothFace, alGet, alSet]
    decide

/-- Claim C6 is refuted as stated: a drowsy face with score 30 < 40 and an
open not_attentive cooldown gets a drowsy alert but NO not_attentive
alert — the low-attention branch is additionally gated on the face being
neither drowsy nor looking away. -/
theorem claim_C6_counterexample :
    drowsyLowFace.attention_score < 40 ∧
    cooldownOpen [] (drowsyLowFace.track_id, AlertType.not_attentive) 1 10000
      = true ∧
    (AlertType.not_attentive, Severity.info)
      ∉ (processFace [] 1 drowsyLowFace).2 ∧
    (AlertType.drowsy, Severity.critical)
      ∈ (processFace [] 1 drowsyLowFace).2 := by
  refine ⟨?_, ?_, ?_, ?_⟩ <;>
    (norm_num [processFace, cooldownOpen, isDrowsyOf, isLookingAwayOf,
      drowsyLowFace, alGet, alSet]
     try decide)

/-! ### Hub theorems -/

theorem Channel.send_cap (ch : Channel) (m : Nat) : (ch.send m).cap = ch.cap := by
  unfold Channel.send
  split <;> rfl

theorem Channel.send_msgs (ch : Channel) (m : Nat) :
    (ch.send m).msgs = if ch.msgs.length < ch.cap then ch.msgs ++ [m]
      else ch.msgs := by
  unfold Channel.send
  split <;> simp_all

def chan4 : Channel := ⟨4, []⟩

def clientA : Client := ⟨1, 5, chan4⟩

def clientB : Client := ⟨2, 5, chan4⟩

def clientC : Client := ⟨3, 5, chan4⟩

/-- Three subscribers registered to meeting 5. -/
def hub3 : Hub := ((Hub.empty.addClient clientA).addClient clientB).addClient clientC

/-- A subscriber with a saturated outbound channel (capacity 1, full). -/
def fullClient : Client := ⟨11, 6, ⟨1, [9]⟩⟩

/-- A subscriber with spare channel capacity in the same meeting. -/
def freeClient : Client := ⟨12, 6, ⟨4, []⟩⟩

def hubSat : Hub := (Hub.empty.addClient fullClient).addClient freeClient

/-- Claim C4: broadcast delivers to exactly the currently registered
subscribers of the meeting's room whose bounded channels have free
capacity: every present room is transformed pointwise by a non-blocking
send (append iff below capacity) and only the target meeting's room;
broadcasting to an absent room is a no-op; with 3 subscribers all 3
receive, after unregistering one only the remaining 2 receive, and a
saturated subscriber drops only its own copy while the other subscriber
still receives. -/
theorem claim_C4 :
    (∀ (h : Hub) (mid msg mid2 : Nat) (room : Room),
      alGet h.rooms mid2 = some room →
      alGet (h.broadcastToRoom mid msg).rooms mid2
        = some (if mid2 = mid
            then room.map (fun c => { c with send := c.send.send msg })
            else room)) ∧
    (∀ (ch : Channel) (m : Nat),
      (ch.send m).msgs
        = if ch.msgs.length < ch.cap then ch.msgs ++ [m] else ch.msgs) ∧
    (∀ (h : Hub) (mid msg : Nat), alGet h.rooms mid = none →
      h.broadcastToRoom mid msg = h) ∧
    (hub3.broadcastToRoom 5 42).rooms
      = [(5, [⟨1, 5, ⟨4, [42]⟩⟩, ⟨2, 5, ⟨4, [42]⟩⟩, ⟨3, 5, ⟨4, [42]⟩⟩])] ∧
    ((hub3.removeClient clientB).broadcastToRoom 5 43).rooms
      = [(5, [⟨1, 5, ⟨4, [43]⟩⟩, ⟨3, 5, ⟨4, [43]⟩⟩])] ∧
    Hub.empty.broadcastToRoom 5 99 = Hub.empty ∧
    (hubSat.broadcastToRoom 6 42).rooms
      = [(6, [⟨11, 6, ⟨1, [9]⟩⟩, ⟨12, 6, ⟨4, [42]⟩⟩])] := by
  refine ⟨?_, ?_, ?_, by decide, by decide, by decide, by decide⟩
  · intro h mid msg mid2 room hr
    unfold Hub.broadcastToRoom
    cases hm : alGet h.rooms mid with
    | none =>
        by_cases he : mid2 = mid
        · subst he
          rw [hr] at hm
          cases hm
        · simp [hr, he]
    | some roomM =>
        by_cases he : mid2 = mid
        · subst he
          rw [hr] at hm
          injection hm with hh
          subst hh
          simp [alGet_alSet_self]
        · simp [alGet_alSet_ne _ _ _ _ he, hr, he]
  · intro ch m
    exact Channel.send_msgs ch m
  · intro h mid msg hm
    unfold Hub.broadcastToRoom
    rw [hm]

/-- Witness for claim C4: delivery characterization applied to the
concrete three-subscriber hub, and the no-op conjunct applied to the empty
hub. -/
theorem claim_C4_witness :
    alGet (hub3.broadcastToRoom 5 42).rooms 5
      = some (if 5 = 5
          then [clientA, clientB, clientC].map
            (fun c => { c with send := c.send.send 42 })
          else [clientA, clientB, clientC]) ∧
    Hub.empty.broadcastToRoom 7 99 = Hub.empty :=
  ⟨claim_C4.1 hub3 5 42 5 [clientA, clientB, clientC] (by decide),
   claim_C4.2.2.1 Hub.empty 7 99 (by decide)⟩

theorem mem_alSet {κ α : Type} [DecidableEq κ] (l : List (κ × α)) (k : κ)
    (v : α) (e : κ × α) (h : e ∈ alSet l k v) : e ∈ l ∨ e = (k, v) := by
  induction l with
  | nil =>
      simp [alSet] at h
      exact Or.inr h
  | cons e2 t ih =>
      by_cases he : e2.1 = k
      · simp only [alSet, if_pos he, List.mem_cons] at h
        rcases h with h | h
        · exact Or.inr h
        · exact Or.inl (List.mem_cons_of_mem _ h)
      · simp only [alSet, if_neg he, List.mem_cons] at h
        rcases h with h | h
        · exact Or.inl (by simp [h])
        · rcases ih h with h2 | h2
          · exact Or.inl (List.mem_cons_of_mem _ h2)
          · exact Or.inr h2

theorem mem_alErase {κ α : Type} [DecidableEq κ] (l : List (κ × α)) (k : κ)
    (e : κ × α) (h : e ∈ alErase l k) : e ∈ l := by
  induction l with
  | nil => simpa [alErase] using h
  | cons e2 t ih =>
      by_cases he : e2.1 = k
      · simp only [alErase, if_pos he] at h
        exact List.mem_cons_of_mem _ (ih h)
      · simp only [alErase, if_neg he, List.mem_cons] at h
        rcases h with h | h
        · subst h
          exact List.mem_cons_self _ _
        · exact List.mem_cons_of_mem _ (ih h)

theorem Room.setClient_ne_nil (room : Room) (c : Client) :
    room.setClient c ≠ [] := by
  unfold Room.setClient
  cases room with
  | nil => simp
  | cons x t => split <;> simp

/-- Invariant: every room stored in the hub is nonempty. -/
def Hub.roomsNonempty (h : Hub) : Prop :=
  ∀ e ∈ h.rooms, e.2 ≠ []

theorem Hub.step_roomsNonempty (h : Hub) (op : HubOp)
    (hp : h.roomsNonempty) : (h.step op).roomsNonempty := by
  cases op with
  | reg c =>
      simp only [Hub.step, Hub.addClient]
      cases hm : alGet h.rooms c.meetingID with
      | none =>
          intro e he
          rcases mem_alSet _ _ _ _ he with h2 | h2
          · exact hp e h2
          · subst h2
            simp
      | some room =>
          intro e he
          rcases mem_alSet _ _ _ _ he with h2 | h2
          · exact hp e h2
          · subst h2
            exact Room.setClient_ne_nil room c
  | unreg c =>
      simp only [Hub.step, Hub.removeClient]
      cases hm : alGet h.rooms c.meetingID with
      | none => exact hp
      | some room =>
          by_cases hlen : (room.eraseClient c.id).length = 0
          · simp only [if_pos hlen]
            intro e he
            exact hp e (mem_alErase _ _ _ he)
          · simp only [if_neg hlen]
            intro e he
            rcases mem_alSet _ _ _ _ he with h2 | h2
            · exact hp e h2
            · subst h2
              intro hc
              apply hlen
              simpa using congrArg List.length hc
  | bcast mid msg =>
      simp only [Hub.step, Hub.broadcastToRoom]
      cases hm : alGet h.rooms mid with
      | none => exact hp
      | some room =>
          intro e he
          rcases mem_alSet _ _ _ _ he with h2 | h2
          · exact hp e h2
          · subst h2
            have hr : room ≠ [] := hp (mid, room) (alGet_mem _ _ _ hm)
            simp [hr]

theorem Hub.run_roomsNonempty (ops : List HubOp) :
    (Hub.run ops).roomsNonempty := by
  suffices hgen : ∀ (l : List HubOp) (h : Hub), h.roomsNonempty →
      (l.foldl Hub.step h).roomsNonempty by
    exact hgen ops Hub.empty (by intro e he; simp [Hub.empty] at he)
  intro l
  induction l with
  | nil => intro h hp; exact hp
  | cons op t ih =>
      intro h hp
      exact ih (h.step op) (h.step_roomsNonempty op hp)

/-- Claim C7: a room is created exactly on the first register for its
meetingId (an existing room is updated in place, other meetings are
untouched, and unregister/broadcast never create rooms); a room is removed
exactly when its subscriber set becomes empty after an unregister; hence
every room present in any reachable hub state has at least one
subscriber. -/
theorem claim_C7 :
    (∀ (h : Hub) (c : Client), alGet h.rooms c.meetingID = none →
      alGet (h.addClient c).rooms c.meetingID = some [c]) ∧
    (∀ (h : Hub) (c : Client) (room : Room),
      alGet h.rooms c.meetingID = some room →
      alGet (h.addClient c).rooms c.meetingID = some (room.setClient c)) ∧
    (∀ (h : Hub) (c : Client) (mid : Nat), mid ≠ c.meetingID →
      alGet (h.addClient c).rooms mid = alGet h.rooms mid) ∧
    (∀ (h : Hub) (c : Client) (mid : Nat), alGet h.rooms mid = none →
      alGet (h.removeClient c).rooms mid = none) ∧
    (∀ (h : Hub) (mid msg mid2 : Nat), alGet h.rooms mid2 = none →
      alGet (h.broadcastToRoom mid msg).rooms mid2 = none) ∧
    (∀ (h : Hub) (c : Client) (room : Room),
      alGet h.rooms c.meetingID = some room →
      (alGet (h.removeClient c).rooms c.meetingID = none
        ↔ room.eraseClient c.id = [])) ∧
    (∀ (ops : List HubOp) (mid : Nat) (room : Room),
      alGet (Hub.run ops).rooms mid = some room → room ≠ []) := by
  refine ⟨?_, ?_, ?_, ?_, ?_, ?_, ?_⟩
  · intro h c hm
    unfold Hub.addClient
    rw [hm]
    exact alGet_alSet_self _ _ _
  · intro h c room hm
    unfold Hub.addClient
    rw [hm]
    exact alGet_alSet_self _ _ _
  · intro h c mid hne
    unfold Hub.addClient
    cases hm : alGet h.rooms c.meetingID <;>
      exact alGet_alSet_ne _ _ _ _ hne
  · intro h c mid hm
    unfold Hub.removeClient
    cases hm2 : alGet h.rooms c.meetingID with
    | none => exact hm
    | some room =>
        have hne : mid ≠ c.meetingID := by
          intro he
          rw [he, hm2] at hm
          cases hm
        by_cases hlen : (room.eraseClient c.id).length = 0
        · simp only [if_pos hlen]
          rw [alGet_alErase_ne _ _ _ hne]
          exact hm
        · simp only [if_neg hlen]
          rw [alGet_alSet_ne _ _ _ _ hne]
          exact hm
  · intro h mid msg mid2 hm
    unfold Hub.broadcastToRoom
    cases hm2 : alGet h.rooms mid with
    | none => exact hm
    | some room =>
        have hne : mid2 ≠ mid := by
          intro he
          rw [he, hm2] at hm
          cases hm
        rw [alGet_alSet_ne _ _ _ _ hne]
        exact hm
  · intro h c room hm
    unfold Hub.removeClient
    rw [hm]
    by_cases hlen : (room.eraseClient c.id).length = 0
    · simp only [if_pos hlen]
      constructor
      · intro _
        exact List.length_eq_zero.mp hlen
      · intro _
        exact alGet_alErase_self _ _
    · simp only [if_neg hlen]
      rw [alGet_alSet_self]
      constructor
      · intro hc
        cases hc
      · intro hc
        exact absurd (by simp [hc]) hlen
  · intro ops mid room hm
    exact Hub.run_roomsNonempty ops (mid, room) (alGet_mem _ _ _ hm)

/-- Witness for claim C7: a first register creates a singleton room; the
hub reached by one register has a nonempty room under its meeting key. -/
theorem claim_C7_witness :
    alGet (Hub.empty.addClient clientA).rooms 5 = some [clientA] ∧
    ([clientA] : Room) ≠ [] :=
  ⟨claim_C7.1 Hub.empty clientA (by decide),
   claim_C7.2.2.2.2.2.2 [HubOp.reg clientA] 5 [clientA] (by decide)⟩

/-- The per-client relation of a broadcast frame condition: identity and
membership fields are unchanged and the channel is at most appended. -/
def clientFrame (msg : Nat) (c c2 : Client) : Prop :=
  c.id = c2.id ∧ c.meetingID = c2.meetingID ∧ c.send.cap = c2.send.cap ∧
    (c2.send.msgs = c.send.msgs ∨ c2.send.msgs = c.send.msgs ++ [msg])

/-- The per-room-entry relation: same meeting key, clients related
pointwise. -/
def roomFrame (msg : Nat) (e e2 : Nat × Room) : Prop :=
  e.1 = e2.1 ∧ List.Forall₂ (clientFrame msg) e.2 e2.2

theorem clientFrame_refl (msg : Nat) (c : Client) : clientFrame msg c c :=
  ⟨rfl, rfl, rfl, Or.inl rfl⟩

theorem roomFrame_refl (msg : Nat) (e : Nat × Room) : roomFrame msg e e :=
  ⟨rfl, List.forall₂_same.mpr (fun c _ => clientFrame_refl msg c)⟩

theorem clientFrame_send (msg : Nat) (c : Client) :
    clientFrame msg c { c with send := c.send.send msg } := by
  refine ⟨rfl, rfl, (Channel.send_cap c.send msg).symm, ?_⟩
  rw [Channel.send_msgs]
  split
  · exact Or.inr rfl
  · exact Or.inl rfl

theorem roomFrame_alSet (msg mid : Nat) (l : List (Nat × Room)) (room : Room)
    (hm : alGet l mid = some room) :
    List.Forall₂ (roomFrame msg) l
      (alSet l mid (room.map (fun c => { c with send := c.send.send msg }))) := by
  induction l with
  | nil => simp [alGet] at hm
  | cons e t ih =>
      by_cases he : e.1 = mid
      · simp only [alGet, if_pos he] at hm
        injection hm with hm
        simp only [alSet, if_pos he]
        constructor
        · exact ⟨he.symm ▸ rfl, by
            rw [← hm]
            exact List.forall₂_map_right_iff.mpr
              (List.forall₂_same.mpr (fun c _ => clientFrame_send msg c))⟩
        · exact List.forall₂_same.mpr (fun x _ => roomFrame_refl msg x)
      · simp only [alGet, if_neg he] at hm
        simp only [alSet, if_neg he]
        exact List.Forall₂.cons (roomFrame_refl msg e) (ih hm)

/-- Claim C10: broadcast leaves the meeting-to-room map and every room's
membership unchanged — each room entry keeps its key and its clients keep
their identity, meeting and channel capacity, with the channel contents
at most appended with the broadcast message. -/
theorem claim_C10 (h : Hub) (mid msg : Nat) :
    List.Forall₂ (roomFrame msg) h.rooms (h.broadcastToRoom mid msg).rooms := by
  unfold Hub.broadcastToRoom
  cases hm : alGet h.rooms mid with
  | none => exact List.forall₂_same.mpr (fun e _ => roomFrame_refl msg e)
  | some room => exact roomFrame_alSet msg mid h.rooms room hm

/-! ### Gateway persistence throttle and `saveAttentionMetrics` (Go)

Times are epoch milliseconds as naturals.  The Redis-subscriber callback
keeps `lastSaveTime : map[meetingID]time.Time` and persists a batch only
when `!exists || time.Since(lastSave) >= 5*time.Second`, updating the map
when it saves. -/

def shouldSaveAt (lastSaveTime : List (Nat × Nat)) (mid now : Nat) : Bool :=
  match alGet lastSaveTime mid with
  | none => true
  | some t => decide (now - t ≥ 5000)

/-- One callback invocation: returns the updated `lastSaveTime` map and
whether `saveAttentionMetrics` was launched. -/
def handleResult (st : List (Nat × Nat)) (now mid : Nat) :
    List (Nat × Nat) × Bool :=
  let s := shouldSaveAt st mid now
  (if s then alSet st mid now else st, s)

/-- The times at which batches for `mid` are persisted along a trace of
`(now, meetingID)` callback invocations. -/
def saveTimes (st : List (Nat × Nat)) (trace : List (Nat × Nat)) (mid : Nat) :
    List Nat :=
  match trace with
  | [] => []
  | e :: rest =>
      let r := handleResult st e.1 e.2
      if e.2 = mid ∧ r.2 = true then e.1 :: saveTimes r.1 rest mid
      else saveTimes r.1 rest mid

/-- One face entry of the JSON batch handed to `saveAttentionMetrics`
(`track_id` as a natural, optional gaze/head-pose/blink sub-objects). -/
structure FaceEntry where
  track_id : Nat
  attention_score : ℚ
  gaze : Option GazeInfo
  head_pose : Option HeadPoseInfo
  blink : Option BlinkInfo
  deriving DecidableEq, Repr

/-- One row written to the `attention_metrics` table; `participantID`
stands for `uuid.NewSHA1(NameSpaceOID, meetingID + trackID)`, injective in
the (meeting, track) pair. -/
structure AttentionMetric where
  time : Nat
  meetingID : Nat
  participantID : Nat × Nat
  attentionScore : ℚ
  gazeScore : ℚ
  headPoseScore : ℚ
  eyeOpennessScore : ℚ
  isLookingAway : Bool
  isDrowsy : Bool
  deriving DecidableEq, Repr

/-- The metric built for one participant entry in `saveAttentionMetrics`:
gaze 50/100 from the looking flag, head-pose score `100 - (|yaw| +
|pitch|)/2` floored at 0, eye openness from `avg_ear` defaulting to 1. -/
def metricOfParticipant (mid now : Nat) (p : FaceEntry) : AttentionMetric :=
  let isLookingAway := match p.gaze with
    | some g => !g.is_looking_at_camera
    | none => false
  let isDrowsy := match p.blink with
    | some b => b.is_drowsy
    | none => false
  let eyeOpenness : ℚ := match p.blink with
    | some b => b.avg_ear
    | none => 1
  let headPoseScore : ℚ := match p.head_pose with
    | some hp =>
        let raw := 100 - (|hp.yaw| + |hp.pitch|) / 2
        if raw < 0 then 0 else raw
    | none => 100
  { time := now
    meetingID := mid
    participantID := (mid, p.track_id)
    attentionScore := p.attention_score
    gazeScore := if isLookingAway then 50 else 100
    headPoseScore := headPoseScore
    eyeOpennessScore := eyeOpenness
    isLookingAway := isLookingAway
    isDrowsy := isDrowsy }

/-- Go `saveAttentionMetrics`: one `db.Create` per participant entry. -/
def saveAttentionMetrics (mid now : Nat) (participants : List FaceEntry) :
    List AttentionMetric :=
  participants.map (metricOfParticipant mid now)

theorem saveTimes_spaced (trace : List (Nat × Nat)) (st : List (Nat × Nat))
    (mid : Nat)
    (hmono : List.Pairwise (fun a b : Nat × Nat => a.1 ≤ b.1) trace)
    (hst : ∀ t, alGet st mid = some t → ∀ e ∈ trace, t ≤ e.1) :
    List.Pairwise (fun a b => a + 5000 ≤ b) (saveTimes st trace mid) ∧
    (∀ t, alGet st mid = some t →
      ∀ s ∈ saveTimes st trace mid, t + 5000 ≤ s) := by
  induction trace generalizing st with
  | nil => simp [saveTimes]
  | cons e rest ih =>
      obtain ⟨now, m⟩ := e
      obtain ⟨hhead, hrest⟩ := List.pairwise_cons.mp hmono
      by_cases hm : m = mid
      · subst hm
        by_cases hs : shouldSaveAt st m now = true
        · have hcond : (((now, m) : Nat × Nat).2 = m ∧
              (handleResult st now m).2 = true) := by
            simp [handleResult, hs]
          have hres : saveTimes st ((now, m) :: rest) m
              = now :: saveTimes (alSet st m now) rest m := by
            simp [saveTimes, handleResult, hs]
          have hst2 : ∀ t, alGet (alSet st m now) m = some t →
              ∀ e2 ∈ rest, t ≤ e2.1 := by
            intro t ht e2 he2
            rw [alGet_alSet_self] at ht
            injection ht with ht
            subst ht
            exact hhead e2 he2
          obtain ⟨ihP, ihT⟩ := ih (alSet st m now) hrest hst2
          have htail : ∀ s ∈ saveTimes (alSet st m now) rest m,
              now + 5000 ≤ s := by
            intro s hsm
            exact ihT now (alGet_alSet_self _ _ _) s hsm
          constructor
          · rw [hres]
            exact List.pairwise_cons.mpr ⟨htail, ihP⟩
          · intro t ht s hsm
            have hnt : t + 5000 ≤ now := by
              unfold shouldSaveAt at hs
              rw [ht] at hs
              simp at hs
              have : t ≤ now := hst t ht (now, m) (List.mem_cons_self _ _)
              omega
            rw [hres] at hsm
            rcases List.mem_cons.mp hsm with h2 | h2
            · omega
            · have := htail s h2
              omega
        · have hs2 : shouldSaveAt st m now = false :=
            Bool.eq_false_iff.mpr hs
          have hres : saveTimes st ((now, m) :: rest) m
              = saveTimes st rest m := by
            simp [saveTimes, handleResult, hs2]
          have hst2 : ∀ t, alGet st m = some t → ∀ e2 ∈ rest, t ≤ e2.1 :=
            fun t ht e2 he2 => hst t ht e2 (List.mem_cons_of_mem _ he2)
          obtain ⟨ihP, ihT⟩ := ih st hrest hst2
          rw [hres]
          exact ⟨ihP, ihT⟩
      · have hres : saveTimes st ((now, m) :: rest) mid
            = saveTimes (handleResult st now m).1 rest mid := by
          simp only [saveTimes]
          rw [if_neg (by simp [hm])]
        have hget : alGet (handleResult st now m).1 mid = alGet st mid := by
          simp only [handleResult]
          split
          · exact alGet_alSet_ne _ _ _ _ (fun hx => hm hx.symm)
          · rfl
        have hst2 : ∀ t, alGet (handleResult st now m).1 mid = some t →
            ∀ e2 ∈ rest, t ≤ e2.1 := by
          intro t ht e2 he2
          rw [hget] at ht
          exact hst t ht e2 (List.mem_cons_of_mem _ he2)
        obtain ⟨ihP, ihT⟩ := ih (handleResult st now m).1 hrest hst2
        rw [hres]
        refine ⟨ihP, ?_⟩
        intro t ht s hsm
        exact ihT t (by rw [hget]; exact ht) s hsm

/-- Claim C9: along any chronologically ordered trace of result batches,
the persistence sink runs at most once per meeting per 5-second window —
any two saves for a meeting are at least 5000 ms apart — and one persisted
invocation writes exactly one row per participant entry, hence at most one
sample per participant when the batch's track ids are distinct. -/
theorem claim_C9 :
    (∀ (trace : List (Nat × Nat)) (mid : Nat),
      List.Pairwise (fun a b : Nat × Nat => a.1 ≤ b.1) trace →
      List.Pairwise (fun a b => a + 5000 ≤ b) (saveTimes [] trace mid)) ∧
    (∀ (mid now : Nat) (batch : List FaceEntry),
      (batch.map FaceEntry.track_id).Nodup →
      ((saveAttentionMetrics mid now batch).map
        AttentionMetric.participantID).Nodup) := by
  constructor
  · intro trace mid hmono
    refine (saveTimes_spaced trace [] mid hmono ?_).1
    intro t ht
    simp [alGet] at ht
  · intro mid now batch hnd
    have hmap : (saveAttentionMetrics mid now batch).map
        AttentionMetric.participantID
        = (batch.map FaceEntry.track_id).map (fun t => (mid, t)) := by
      simp only [saveAttentionMetrics, List.map_map]
      rfl
    rw [hmap]
    exact hnd.map (fun a b hab => by simpa using hab)

/-- Witness for claim C9: a monotone three-batch trace for meeting 1 saves
at t = 0 and t = 6000 only (the t = 3000 batch is throttled), and a
two-participant batch writes two distinct participant rows. -/
theorem claim_C9_witness :
    List.Pairwise (fun a b => a + 5000 ≤ b)
      (saveTimes [] [(0, 1), (3000, 1), (6000, 1)] 1) ∧
    ((saveAttentionMetrics 1 0
        [⟨1, 50, none, none, none⟩, ⟨2, 60, none, none, none⟩]).map
      AttentionMetric.participantID).Nodup :=
  ⟨claim_C9.1 [(0, 1), (3000, 1), (6000, 1)] 1 (by decide),
   claim_C9.2 1 0 [⟨1, 50, none, none, none⟩, ⟨2, 60, none, none, none⟩]
     (by decide)⟩
